import Mathlib

/-!
Verification of the error-handling core of the `ffi-helpers` crate
(`src/lib.rs`): a thread-local last-error slot (`LAST_ERROR`), the
`update_last_error` / `get_last_error` accessors, the `error_message`
buffer-writing FFI entry point, and the `catch_panic` wrapper.

Shallow embedding conventions:
* An error value (`Box<dyn Error>`) is modelled by its only observable
  capability here: the rendered `format!("{}", err)` message, kept as its
  UTF-8 byte list.
* The thread-local slot is an `Option ErrVal`; the FFI functions become
  explicit state-passing functions on that slot.
* `c_int` / `usize` arithmetic is modelled on `Int` / `Nat` with explicit
  `% 2 ^ 32` / `% 2 ^ 64` wrapping where the source casts
  (`length as usize`, `data.len() as c_int`).
* The caller buffer is the byte region viewed by
  `slice::from_raw_parts_mut(buffer, length as usize)`: a `List Nat`
  (`none` models a null pointer).
-/

namespace FfiHelpers

/-- The rendered message of one stored error value: the UTF-8 bytes of
`format!("{}", err)`.  The crate treats the error itself as opaque; its
message is its only capability used by `error_message`. -/
structure ErrVal where
  msg : List Nat
deriving DecidableEq

/-- The thread-local `LAST_ERROR : RefCell<Option<Box<Error>>>` cell of the
calling thread. -/
abbrev Slot := Option ErrVal

/-- `update_last_error`: `*last.borrow_mut() = Some(boxed)` — store `e`,
unconditionally replacing any previous value. -/
def update_last_error (e : ErrVal) (_s : Slot) : Slot :=
  some e

/-- `get_last_error`: `last.borrow_mut().take()` — return the stored value
and leave the slot empty. -/
def get_last_error (s : Slot) : Option ErrVal × Slot :=
  (s, none)

/-- The Rust cast `length as usize` for `length : c_int` on a 64-bit
target: sign-extend the 32-bit value and reinterpret it as an unsigned
64-bit integer (reduction modulo `2 ^ 64`). -/
def usizeOfCInt (length : Int) : Nat :=
  (length % (2 : Int) ^ 64).toNat

/-- The Rust cast `n as c_int` for `n : usize`: truncate to the low 32 bits
and reinterpret as a signed 32-bit integer. -/
def cIntOfUsize (n : Nat) : Int :=
  if n % 2 ^ 32 < 2 ^ 31 then ((n % 2 ^ 32 : Nat) : Int)
  else ((n % 2 ^ 32 : Nat) : Int) - 2 ^ 32

/-- The observable outcome of one `error_message` call: the returned
`c_int`, the caller's buffer area after the call (`none` for a null
pointer), and the thread's `LAST_ERROR` slot after the call. -/
structure WriteOutcome where
  ret : Int
  buffer : Option (List Nat)
  slot : Slot
deriving DecidableEq

/-- `error_message(buffer, length)` from `src/lib.rs`, as a function of the
calling thread's slot.  Mirrors the source line by line: null check; view
the buffer as a slice of `length as usize` bytes; `get_last_error`; on no
error return `0`; compute `bytes_required = message.len() + 1`; if the
slice is too small, `update_last_error` the taken error back and return
`-1`; otherwise copy the message bytes to the front of the slice, zero the
rest of the slice, and return `data.len() as c_int`. -/
def error_message (buffer : Option (List Nat)) (length : Int) (s : Slot) :
    WriteOutcome :=
  match buffer with
  | none => ⟨-1, none, s⟩
  | some mem =>
    let cap := usizeOfCInt length
    match get_last_error s with
    | (none, s1) => ⟨0, some mem, s1⟩
    | (some err, s1) =>
      let message := err.msg
      let bytes_required := message.length + 1
      if cap < bytes_required then
        ⟨-1, some mem, update_last_error err s1⟩
      else
        ⟨cIntOfUsize message.length,
         some (message ++ List.replicate (cap - message.length) 0 ++
           List.drop cap mem),
         none⟩

/-- A run of the closure handed to `catch_panic`: it either returns a
`Result` normally, or panics with a payload of type `P`
(`Box<dyn Any + Send>` in the source). -/
inductive Outcome (T E P : Type) where
  | normal : Except E T → Outcome T E P
  | panicked : P → Outcome T E P

/-- `std::panic::catch_unwind`: a normal completion becomes `Ok`, a panic
is caught and its payload returned as `Err`. -/
def catch_unwind {T E P : Type} (run : Outcome T E P) :
    Except P (Except E T) :=
  match run with
  | .normal r => .ok r
  | .panicked p => .error p

/-- `Result::map_err`. -/
def resultMapErr {A E P : Type} (f : P → E) : Except P A → Except E A
  | .ok a => .ok a
  | .error p => .error (f p)

/-- `Result::and_then`. -/
def resultAndThen {A B E : Type} (r : Except E A) (f : A → Except E B) :
    Except E B :=
  match r with
  | .ok a => f a
  | .error e => .error e

/-- `catch_panic`:
`panic::catch_unwind(func).map_err(Into::into).and_then(|t| t)`, with the
`E: From<Box<Any + Send>>` conversion passed explicitly as `into`. -/
def catch_panic {T E P : Type} (into : P → E) (run : Outcome T E P) :
    Except E T :=
  resultAndThen (resultMapErr into (catch_unwind run)) (fun t => t)

/-- Thread identifiers, to express the thread-affinity of `LAST_ERROR`. -/
abbrev ThreadId := Nat

/-- The `thread_local!` storage as a whole: each thread's own
`LAST_ERROR` slot. -/
abbrev TLState := ThreadId → Slot

/-- `update_last_error` executed on thread `t`: only `t`'s slot changes. -/
def store_on (t : ThreadId) (e : ErrVal) (g : TLState) : TLState :=
  fun u => if u = t then update_last_error e (g u) else g u

/-- `get_last_error` executed on thread `t`: reads and clears only `t`'s
slot. -/
def take_on (t : ThreadId) (g : TLState) : Option ErrVal × TLState :=
  ((get_last_error (g t)).1,
   fun u => if u = t then (get_last_error (g u)).2 else g u)

/-- A `c_int` length below `2 ^ 31` (i.e. a nonnegative one) is unchanged
by the `as usize` cast. -/
theorem usizeOfCInt_natCast (n : Nat) (h : n < 2 ^ 64) :
    usizeOfCInt (n : Int) = n := by
  have h0 : (0 : Int) ≤ (n : Int) := Int.natCast_nonneg n
  have h1 : (n : Int) < (2 : Int) ^ 64 := by exact_mod_cast h
  unfold usizeOfCInt
  rw [Int.emod_eq_of_lt h0 h1, Int.toNat_natCast]

/-- A `usize` below `2 ^ 31` is unchanged by the `as c_int` cast. -/
theorem cIntOfUsize_of_lt (n : Nat) (h : n < 2 ^ 31) :
    cIntOfUsize n = (n : Int) := by
  have h32 : n < 2 ^ 32 := lt_trans h (by norm_num)
  unfold cIntOfUsize
  rw [Nat.mod_eq_of_lt h32, if_pos h]

/-- C4: after `update_last_error e`, one `get_last_error` returns `e` and
empties the slot, and an immediate second `get_last_error` returns `none`
(one-shot consumption). -/
theorem slot_one_shot_consumption (e : ErrVal) (s : Slot) :
    get_last_error (update_last_error e s) = (some e, none) ∧
    get_last_error (get_last_error (update_last_error e s)).2 =
      (none, none) :=
  ⟨rfl, rfl⟩

/-- C5: `update_last_error e1` then `update_last_error e2` then
`get_last_error` yields `e2`; `e1` is discarded, the slot holds at most one
error. -/
theorem slot_replacement (e1 e2 : ErrVal) (s : Slot) :
    get_last_error (update_last_error e2 (update_last_error e1 s)) =
      (some e2, none) :=
  rfl

/-- C7: with an empty slot, `error_message` on any non-null buffer and any
length returns `0`, leaves the buffer unchanged and the slot empty. -/
theorem error_message_empty_slot (mem : List Nat) (length : Int) :
    error_message (some mem) length none = ⟨0, some mem, none⟩ :=
  rfl

/-- C3: `catch_panic` passes a normal completion (`Ok` or `Err`) through
unchanged, and converts a panic with payload `p` into `Err (into p)`; no
panic escapes, the result type is an ordinary `Result`. -/
theorem catch_panic_passthrough_and_absorb (T E P : Type) (into : P → E) :
    (∀ r : Except E T, catch_panic into (Outcome.normal r) = r) ∧
    (∀ p : P,
      catch_panic into (Outcome.panicked p : Outcome T E P) =
        Except.error (into p)) := by
  constructor
  · intro r
    cases r <;> rfl
  · intro p
    rfl

/-- C6: `error_message` on a null buffer returns `-1` and leaves the slot
exactly as it was, for any slot state; on a pending error, a subsequent
call with a valid, sufficiently large buffer still retrieves it (returns
the message length and consumes the error). -/
theorem error_message_null_buffer (length1 : Int) (s : Slot) (e : ErrVal)
    (mem : List Nat) (length2 : Nat)
    (hcap : e.msg.length + 1 ≤ length2) (hlen : length2 < 2 ^ 31) :
    error_message none length1 s = ⟨-1, none, s⟩ ∧
    (error_message (some mem) (length2 : Int)
        (error_message none length1 (some e)).slot).ret =
      (e.msg.length : Int) ∧
    (error_message (some mem) (length2 : Int)
        (error_message none length1 (some e)).slot).slot = none := by
  have hc : usizeOfCInt (length2 : Int) = length2 :=
    usizeOfCInt_natCast length2 (lt_trans hlen (by norm_num))
  have hN : e.msg.length < 2 ^ 31 :=
    lt_trans (lt_of_lt_of_le (Nat.lt_succ_self _) hcap) hlen
  refine ⟨rfl, ?_, ?_⟩ <;>
    simp [error_message, get_last_error, hc, Nat.not_lt.mpr hcap,
      cIntOfUsize_of_lt _ hN]

/-- C6 witness at a concrete pending error and buffers. -/
theorem error_message_null_buffer_witness :
    error_message none 7 (some ⟨[120]⟩) = ⟨-1, none, some ⟨[120]⟩⟩ ∧
    (error_message (some [0, 0]) ((2 : Nat) : Int)
        (error_message none 7 (some ⟨[120]⟩)).slot).ret =
      (((ErrVal.mk [120]).msg.length : Nat) : Int) ∧
    (error_message (some [0, 0]) ((2 : Nat) : Int)
        (error_message none 7 (some ⟨[120]⟩)).slot).slot = none :=
  error_message_null_buffer 7 (some ⟨[120]⟩) ⟨[120]⟩ [0, 0] 2
    (by decide) (by decide)

/-- C1: on a pending error whose message is `N` bytes, `error_message` with
a non-null buffer of capacity `< N + 1` returns `-1` and restores the error
into the slot, and a subsequent call with capacity `≥ N + 1` on the
resulting slot succeeds: it returns `N` and consumes the error. -/
theorem error_message_overflow_preserves (e : ErrVal) (mem mem2 : List Nat)
    (len1 len2 : Nat)
    (h1 : len1 < e.msg.length + 1) (hl1 : len1 < 2 ^ 31)
    (h2 : e.msg.length + 1 ≤ len2) (hl2 : len2 < 2 ^ 31) :
    error_message (some mem) (len1 : Int) (some e) =
      ⟨-1, some mem, some e⟩ ∧
    (error_message (some mem2) (len2 : Int)
        (error_message (some mem) (len1 : Int) (some e)).slot).ret =
      (e.msg.length : Int) ∧
    (error_message (some mem2) (len2 : Int)
        (error_message (some mem) (len1 : Int) (some e)).slot).slot =
      none := by
  have hc1 : usizeOfCInt (len1 : Int) = len1 :=
    usizeOfCInt_natCast len1 (lt_trans hl1 (by norm_num))
  have hc2 : usizeOfCInt (len2 : Int) = len2 :=
    usizeOfCInt_natCast len2 (lt_trans hl2 (by norm_num))
  have hN : e.msg.length < 2 ^ 31 :=
    lt_trans (lt_of_lt_of_le (Nat.lt_succ_self _) h2) hl2
  refine ⟨?_, ?_, ?_⟩ <;>
    simp [error_message, get_last_error, update_last_error, hc1, hc2, h1,
      Nat.not_lt.mpr h2, cIntOfUsize_of_lt _ hN]

/-- C1 witness: message `"boom"` (4 bytes), first capacity 3, retry
capacity 5. -/
theorem error_message_overflow_preserves_witness :
    error_message (some [7, 7, 7]) ((3 : Nat) : Int)
        (some ⟨[98, 111, 111, 109]⟩) =
      ⟨-1, some [7, 7, 7], some ⟨[98, 111, 111, 109]⟩⟩ ∧
    (error_message (some [1, 1, 1, 1, 1]) ((5 : Nat) : Int)
        (error_message (some [7, 7, 7]) ((3 : Nat) : Int)
          (some ⟨[98, 111, 111, 109]⟩)).slot).ret =
      (((ErrVal.mk [98, 111, 111, 109]).msg.length : Nat) : Int) ∧
    (error_message (some [1, 1, 1, 1, 1]) ((5 : Nat) : Int)
        (error_message (some [7, 7, 7]) ((3 : Nat) : Int)
          (some ⟨[98, 111, 111, 109]⟩)).slot).slot = none :=
  error_message_overflow_preserves ⟨[98, 111, 111, 109]⟩ [7, 7, 7]
    [1, 1, 1, 1, 1] 3 5 (by decide) (by decide) (by decide) (by decide)

/-- C2: on a pending error whose message is `N` bytes and a buffer of
capacity `≥ N + 1`, `error_message` writes the message to the start of the
buffer, zero-fills the rest of the buffer up to its capacity, returns `N`,
and leaves the slot empty. -/
theorem error_message_success_zero_fill (e : ErrVal) (mem : List Nat)
    (len : Nat) (hlen : len < 2 ^ 31) (hmem : mem.length = len)
    (hcap : e.msg.length + 1 ≤ len) :
    error_message (some mem) (len : Int) (some e) =
      ⟨(e.msg.length : Int),
       some (e.msg ++ List.replicate (len - e.msg.length) 0), none⟩ := by
  have hc : usizeOfCInt (len : Int) = len :=
    usizeOfCInt_natCast len (lt_trans hlen (by norm_num))
  have hN : e.msg.length < 2 ^ 31 :=
    lt_trans (lt_of_lt_of_le (Nat.lt_succ_self _) hcap) hlen
  have hdrop : List.drop len mem = [] :=
    List.drop_eq_nil_of_le (le_of_eq hmem)
  simp [error_message, get_last_error, hc, Nat.not_lt.mpr hcap,
    cIntOfUsize_of_lt _ hN, hdrop]

/-- C2 witness: message `"boom"`, capacity 10, stale buffer contents 7. -/
theorem error_message_success_zero_fill_witness :
    error_message (some [7, 7, 7, 7, 7, 7, 7, 7, 7, 7]) ((10 : Nat) : Int)
        (some ⟨[98, 111, 111, 109]⟩) =
      ⟨(((ErrVal.mk [98, 111, 111, 109]).msg.length : Nat) : Int),
       some ([98, 111, 111, 109] ++ List.replicate 6 0), none⟩ :=
  error_message_success_zero_fill ⟨[98, 111, 111, 109]⟩
    [7, 7, 7, 7, 7, 7, 7, 7, 7, 7] 10 (by decide) (by decide) (by decide)

/-- C8: thread affinity — an error stored on thread `a` is invisible to a
`take` on another thread `b` (whose own slot is empty), and a later `take`
on `a` still yields the stored error. -/
theorem slot_thread_affinity (a b : ThreadId) (e : ErrVal) (g : TLState)
    (hab : a ≠ b) (hb : g b = none) :
    (take_on b (store_on a e g)).1 = none ∧
    (take_on a (take_on b (store_on a e g)).2).1 = some e := by
  constructor
  · simp [take_on, store_on, get_last_error, update_last_error,
      hab.symm, hb]
  · simp [take_on, store_on, get_last_error, update_last_error,
      hab, hab.symm]

/-- C8 witness: thread 0 stores, thread 1 takes nothing, thread 0 still
recovers its error. -/
theorem slot_thread_affinity_witness :
    (take_on 1 (store_on 0 ⟨[98]⟩ (fun _ => none))).1 = none ∧
    (take_on 0 (take_on 1 (store_on 0 ⟨[98]⟩ (fun _ => none))).2).1 =
      some ⟨[98]⟩ :=
  slot_thread_affinity 0 1 ⟨[98]⟩ (fun _ => none) (by decide) rfl

/-- C9: a pending error with an empty rendered message is written
successfully by any buffer of capacity `≥ 1`: the call returns `0` and
consumes the error — the same return value the empty-slot case produces,
so the two are indistinguishable by return code. -/
theorem error_message_empty_message (mem : List Nat) (len : Nat)
    (h1 : 1 ≤ len) (hlen : len < 2 ^ 31) :
    (error_message (some mem) (len : Int) (some ⟨[]⟩)).ret = 0 ∧
    (error_message (some mem) (len : Int) (some ⟨[]⟩)).slot = none ∧
    (error_message (some mem) (len : Int) none).ret = 0 := by
  have hc : usizeOfCInt (len : Int) = len :=
    usizeOfCInt_natCast len (lt_trans hlen (by norm_num))
  refine ⟨?_, ?_, rfl⟩ <;>
    simp [error_message, get_last_error, hc, Nat.not_lt.mpr h1, cIntOfUsize]

/-- C9 witness: empty message, capacity 1. -/
theorem error_message_empty_message_witness :
    (error_message (some [5]) ((1 : Nat) : Int) (some ⟨[]⟩)).ret = 0 ∧
    (error_message (some [5]) ((1 : Nat) : Int) (some ⟨[]⟩)).slot = none ∧
    (error_message (some [5]) ((1 : Nat) : Int) none).ret = 0 :=
  error_message_empty_message [5] 1 (by decide) (by decide)

/-- C10: the `length as usize` cast reinterprets a negative `c_int` as a
huge unsigned value (`length + 2 ^ 64`), so a negative length is never
rejected as invalid: with an empty slot and a non-null buffer the call
still returns `0`, not `-1`. -/
theorem error_message_negative_length_unsigned (mem : List Nat)
    (length : Int) (hneg : length < 0) (hrange : -(2 ^ 31) ≤ length) :
    usizeOfCInt length = (length + 2 ^ 64).toNat ∧
    error_message (some mem) length none = ⟨0, some mem, none⟩ := by
  constructor
  · have h31 : -(2147483648 : Int) ≤ length := by
      have h := hrange
      norm_num at h
      exact h
    have hmod : length % (2 : Int) ^ 64 = length + 2 ^ 64 := by
      norm_num
      omega
    unfold usizeOfCInt
    rw [hmod]
  · rfl

/-- C10 witness: length `-1` maps to `2 ^ 64 - 1` and the call returns
`0`. -/
theorem error_message_negative_length_unsigned_witness :
    usizeOfCInt (-1) = ((-1 : Int) + 2 ^ 64).toNat ∧
    error_message (some []) (-1) none = ⟨0, some [], none⟩ :=
  error_message_negative_length_unsigned [] (-1) (by decide) (by decide)

end FfiHelpers
